import Mathlib

/-!
# CollegeHelper schedule-construction engine: a shallow embedding

This file embeds the schedule-construction engine of the CollegeHelper
repository in Lean 4 and proves properties of it.  The repository contains
two parallel implementations of the engine:

* `backend/services/scheduler_service.py` (class `SchedulerService`),
  embedded here in namespace `SchedulerService`;
* `antigo/scripts/subject_scheduler.py` (class `SubjectScheduler`),
  embedded here in namespace `SubjectScheduler`.

Modelling conventions:

* Python strings are Lean `String`s; the character-level helpers used by
  the Python code (`str.split`, `str.strip`, `str.lower`, `str.title`,
  membership tests) are embedded as structurally recursive functions on
  `List Char` below, matching CPython's behaviour for the ASCII inputs the
  engine handles.
* `datetime.time` values produced by `strptime('%H:%M')` are embedded as
  minutes since midnight (`Nat`).  Python compares `time` values
  lexicographically on (hour, minute, second=0, microsecond=0), which for
  these values is order- and equality-isomorphic to the minute count.
* Python `int` fields are `Int`.  The one exception is
  `subject_count`, declared "positive integer (target size)" by the data
  model, which is embedded as `Nat`.
* Python exceptions are embedded with `Except`/`Option`: a `try` block that
  swallows an exception mid-loop is embedded by a recursion that returns
  the partially accumulated result at the raising step.
* `sorted(xs, key=k)` (CPython's stable sort) is embedded as
  `List.insertionSort r` where `r a b` is the decidable total preorder
  `k a ≤ k b`; insertion sort is stable, so the two agree for total
  preorder keys.
* Python dicts are embedded as association lists kept in insertion order;
  `dict[k] = v` rebinding and `dict.get` are modelled accordingly.
* IEEE-754 float arithmetic (`duration_hours`, `total_hours`,
  `average_difficulty`, `round(·, 1)`, `schedule_efficiency`) is not
  modelled bit-for-bit: the analyzer stores the exact integer ingredients
  of each float value instead (see `PyVal`), and float threshold
  comparisons are translated to their exact integer equivalents
  (`sum_of_minutes/60 > 40  ↔  sum_of_minutes > 2400`).  No claim below
  depends on a float's rounded decimal rendering.
* Database and preference-store reads (`SubjectRepository.get_all`,
  `StudentCRUD.get_all_subjects`, `get_student_preferences`) are external
  collaborators consulted once, up front; the engine pipeline is therefore
  parameterised by the already-assembled subject list and by the interest
  preference snapshot, exactly as delivered by those reads.
-/

/-! ## Python string helpers (character level) -/

/-- `str.split(sep)` for a one-character separator, e.g. `"a,b".split(',')`:
splits on every occurrence of the separator, keeping empty pieces
(`"".split(',') == ['']`). -/
def pySplitChar (sep : Char) : List Char → List (List Char)
  | [] => [[]]
  | c :: cs =>
    if c = sep then [] :: pySplitChar sep cs
    else
      match pySplitChar sep cs with
      | [] => [[c]]
      | piece :: rest => (c :: piece) :: rest

/-- Whitespace test used by Python's no-argument `str.split` and
`str.strip` (ASCII whitespace; sufficient for the engine's inputs). -/
def pyIsSpace (c : Char) : Bool := c.isWhitespace

/-- `str.split()` (no argument): split on whitespace runs, discarding
empty pieces. -/
def pySplitWs (l : List Char) : List (List Char) :=
  (pySplitChar ' ' (l.map (fun c => if pyIsSpace c then ' ' else c))).filter (· ≠ [])

/-- `str.strip()`: remove leading and trailing whitespace. -/
def pyStrip (l : List Char) : List Char :=
  ((l.dropWhile pyIsSpace).reverse.dropWhile pyIsSpace).reverse

/-- Digit-string to number (used to embed `strptime` field parsing);
`none` on the empty list or a non-digit. -/
def digitsToNat? : List Char → Option Nat
  | [] => none
  | l => if l.all Char.isDigit then some (l.foldl (fun n c => n * 10 + (c.toNat - 48)) 0) else none

/-- `datetime.strptime(s, '%H:%M').time()`, embedded as minutes since
midnight.  `%H` and `%M` each match one or two digits (`0 ≤ H ≤ 23`,
`0 ≤ M ≤ 59`), the separator is a literal `:` and the whole string must be
consumed; any other input raises `ValueError`, embedded as `none`. -/
def strptimeHM (s : List Char) : Option Nat :=
  match pySplitChar ':' s with
  | [hs, ms] =>
    if 1 ≤ hs.length ∧ hs.length ≤ 2 ∧ 1 ≤ ms.length ∧ ms.length ≤ 2 then
      match digitsToNat? hs, digitsToNat? ms with
      | some h, some m => if h ≤ 23 ∧ m ≤ 59 then some (h * 60 + m) else none
      | _, _ => none
    else none
  | _ => none

/-- `str.lower()` (ASCII). -/
def pyLower (s : String) : String := ⟨s.data.map Char.toLower⟩

/-- One step of `str.title()`: a cased character is uppercased when the
previous character was not alphabetic and lowercased otherwise. -/
def pyTitleAux : Bool → List Char → List Char
  | _, [] => []
  | prevAlpha, c :: cs =>
    (if c.isAlpha then (if prevAlpha then c.toLower else c.toUpper) else c)
      :: pyTitleAux c.isAlpha cs

/-- `str.title()` (ASCII). -/
def pyTitle (s : String) : String := ⟨pyTitleAux false s.data⟩

/-- Lookup in a Python dict built by successive `d[k] = v` assignments on
the listed pairs: the *last* binding of a key wins. -/
def dictGetLast {α : Type} (pairs : List (String × α)) (k : String) : Option α :=
  pairs.reverse.lookup k

/-- `d[k] = d.get(k, 0) + 1` over an insertion-ordered dict embedded as an
association list. -/
def bumpKey {κ : Type} [BEq κ] : List (κ × Nat) → κ → List (κ × Nat)
  | [], k => [(k, 1)]
  | (k', n) :: rest, k =>
    if k' == k then (k', n + 1) :: rest else (k', n) :: bumpKey rest k

/-- Frequency map of a key list, in first-insertion order (the engine's
`difficulty_distribution` / `category_distribution` dicts). -/
def countMap {κ : Type} [BEq κ] (keys : List κ) : List (κ × Nat) :=
  keys.foldl bumpKey []

/-! ## Time-slot model (`TimeSlot` dataclass, both implementations) -/

/-- `TimeSlot` dataclass: one weekly meeting.  `start_time`/`end_time`
are minutes since midnight (see the file header). -/
structure TimeSlot where
  day : String
  start_time : Nat
  end_time : Nat
deriving DecidableEq, Repr

/-- `TimeSlot.overlaps_with` (identical in both implementations):

    if self.day != other.day: return False
    return not (self.end_time <= other.start_time or self.start_time >= other.end_time)
-/
def TimeSlot.overlaps_with (self other : TimeSlot) : Bool :=
  if self.day ≠ other.day then false
  else !(decide (self.end_time ≤ other.start_time) || decide (self.start_time ≥ other.end_time))

/-- `TimeSlot.duration_hours` returns `(end − start).total_seconds()/3600`;
embedded exactly as the signed minute difference (the float value is this
divided by 60). -/
def TimeSlot.duration_minutes (self : TimeSlot) : Int :=
  (self.end_time : Int) - (self.start_time : Int)

/-! ## Subject / availability / request model (both implementations) -/

/-- `Subject` dataclass (fields common to both implementations). -/
structure Subject where
  id : Int
  name : String
  code : String
  category : String
  credits : Int
  difficulty_level : Int
  prerequisites : List String
  time_slots : List TimeSlot
deriving DecidableEq, Repr

/-- Sum of `duration_hours` over a subject's slots, in minutes. -/
def Subject.total_minutes (s : Subject) : Int :=
  (s.time_slots.map TimeSlot.duration_minutes).sum

/-- `StudentAvailability` dataclass. -/
structure StudentAvailability where
  day : String
  available : Bool
  time_slots : List TimeSlot
deriving DecidableEq, Repr

/-- `SchedulingStrategy` enum (same five members in both files). -/
inductive SchedulingStrategy where
  | maximize_subjects
  | clear_dependencies
  | balanced_difficulty
  | interest_based
  | high_value_credits
deriving DecidableEq, Repr

/-- `SchedulingPreferences` dataclass.  `subject_count` is declared a
positive integer (target size) by the data model and is embedded as `Nat`;
`uploaded_subjects` feeds only the external assembly stage
(`_get_available_subjects`) and is not carried here — the pipeline
functions below are parameterised by the assembled subject list instead. -/
structure SchedulingPreferences where
  student_id : Int
  subject_count : Nat
  strategy : SchedulingStrategy
  prioritize_dependencies : Bool
  include_saturday : Bool
  weekly_availability : List StudentAvailability
  additional_notes : String
deriving DecidableEq, Repr

/-- Sum of the credits of a list of subjects. -/
def sumCredits (l : List Subject) : Int := (l.map Subject.credits).sum

/-! ## Sort-key relations (embedding `sorted(xs, key=...)`) -/

/-- Lexicographic `≤` on Python 2-tuples of ints. -/
def lexLE (p q : Int × Int) : Prop := p.1 < q.1 ∨ (p.1 = q.1 ∧ p.2 ≤ q.2)

instance (p q : Int × Int) : Decidable (lexLE p q) :=
  inferInstanceAs (Decidable (_ ∨ _))

/-- `keyLE k a b`: the sort relation of `sorted(xs, key=k)` for a
2-tuple int key. -/
def keyLE {α : Type} (k : α → Int × Int) (a b : α) : Prop := lexLE (k a) (k b)

instance {α : Type} (k : α → Int × Int) : DecidableRel (keyLE k) :=
  fun _ _ => inferInstanceAs (Decidable (lexLE _ _))

instance {α : Type} (k : α → Int × Int) : IsTotal α (keyLE k) :=
  ⟨fun a b => by unfold keyLE lexLE; omega⟩

instance {α : Type} (k : α → Int × Int) : IsTrans α (keyLE k) :=
  ⟨fun a b c h₁ h₂ => by unfold keyLE lexLE at h₁ h₂ ⊢; omega⟩

/-- `key1LE k a b`: the sort relation of `sorted(xs, key=k)` for a
single int key. -/
def key1LE {α : Type} (k : α → Int) (a b : α) : Prop := k a ≤ k b

instance {α : Type} (k : α → Int) : DecidableRel (key1LE k) :=
  fun _ _ => inferInstanceAs (Decidable (_ ≤ _))

instance {α : Type} (k : α → Int) : IsTotal α (key1LE k) :=
  ⟨fun a b => Int.le_total (k a) (k b)⟩

instance {α : Type} (k : α → Int) : IsTrans α (key1LE k) :=
  ⟨fun _ _ _ h₁ h₂ => Int.le_trans h₁ h₂⟩

/-! ## Analyzer value model

The analyzers return Python dicts; they are embedded as association lists
in insertion order.  Values that Python computes with float arithmetic are
stored as their exact integer ingredients (the IEEE-754 rounding and the
`round(·, 1)` decimal rendering are not modelled; no claim below inspects
those values). -/

/-- A value of an analysis dict. -/
inductive PyVal where
  /-- A Python `int`. -/
  | int (n : Int)
  /-- A list of strings (`warnings`, `recommendations`). -/
  | strList (l : List String)
  /-- An insertion-ordered int-keyed frequency dict
  (`difficulty_distribution`). -/
  | intMap (m : List (Int × Nat))
  /-- An insertion-ordered string-keyed frequency dict
  (`category_distribution`). -/
  | strMap (m : List (String × Nat))
  /-- `round(total_hours, 1)` where `total_hours` is the float
  `minutes / 60`; the exact minute count is stored. -/
  | hoursVal (minutes : Int)
  /-- `round(sum_of_difficulties / count, 1)` as a float; the exact pair
  is stored. -/
  | avgVal (total : Int) (count : Nat)
  /-- `round((scheduled / requested) * 100, 1)` as a float; the exact pair
  is stored. -/
  | pctVal (scheduled : Nat) (requested : Nat)
deriving DecidableEq, Repr

namespace SchedulerService

/-- One segment of `SchedulerService._parse_schedule`'s loop body, as a
partial function: `some slot` when the segment appends a slot, `none` when
the structural checks skip it (blank after stripping, fewer than two
whitespace tokens, or no `-` in the second token) *or* when time parsing
raises (`parse_schedule_raises` separates the two cases). -/
def seg_slot (part : List Char) : Option TimeSlot :=
  let part := pyStrip part
  if part.isEmpty then none
  else
    match pySplitWs part with
    | t0 :: t1 :: _ =>
      if t1.contains '-' then
        match pySplitChar '-' t1 with
        | [s1, s2] =>
          match strptimeHM (pyStrip s1), strptimeHM (pyStrip s2) with
          | some st, some en => some ⟨String.mk (pyStrip t0), st, en⟩
          | _, _ => none
        | _ => none
      else none
    | _ => none

/-- Whether `SchedulerService._parse_schedule`'s loop body raises on this
segment: the structural checks pass but the `-`-split does not have
exactly two pieces (tuple-unpacking `ValueError`) or a side fails
`strptime` (`ValueError`). -/
def seg_raises (part : List Char) : Bool :=
  let part := pyStrip part
  if part.isEmpty then false
  else
    match pySplitWs part with
    | _ :: t1 :: _ =>
      if t1.contains '-' then
        match pySplitChar '-' t1 with
        | [s1, s2] =>
          match strptimeHM (pyStrip s1), strptimeHM (pyStrip s2) with
          | some _, some _ => false
          | _, _ => true
        | _ => true
      else false
    | _ => false

/-- The comma-segment loop of `SchedulerService._parse_schedule`.  The
whole loop runs inside a single `try: ... except: logger.warning(...)`,
so a raising segment returns the slots collected so far and the remaining
segments are never parsed. -/
def parse_schedule_go (slots : List TimeSlot) : List (List Char) → List TimeSlot
  | [] => slots
  | part :: rest =>
    let part := pyStrip part
    if part.isEmpty then parse_schedule_go slots rest
    else
      match pySplitWs part with
      | t0 :: t1 :: _ =>
        if t1.contains '-' then
          match pySplitChar '-' t1 with
          | [s1, s2] =>
            match strptimeHM (pyStrip s1), strptimeHM (pyStrip s2) with
            | some st, some en =>
              parse_schedule_go (slots ++ [⟨String.mk (pyStrip t0), st, en⟩]) rest
            | _, _ => slots
          | _ => slots
        else parse_schedule_go slots rest
      | _ => parse_schedule_go slots rest

/-- `SchedulerService._parse_schedule`: split the schedule string on
commas and run the segment loop (empty input short-circuits to `[]`). -/
def parse_schedule (schedule_str : String) : List TimeSlot :=
  if schedule_str = "" then []
  else parse_schedule_go [] (pySplitChar ',' schedule_str.data)

/-- `SchedulerService._filter_compatible`'s `avail_map` dict comprehension
`{a.day: a for a in availability if a.available}` (later duplicate days
overwrite earlier ones). -/
def avail_map_get (availability : List StudentAvailability) (day : String) :
    Option StudentAvailability :=
  dictGetLast ((availability.filter (·.available)).map (fun a => (a.day, a))) day

/-- `SchedulerService._filter_compatible`: keep the subjects whose every
slot falls on an available day and fits inside at least one availability
window of that day. -/
def filter_compatible (subjects : List Subject)
    (availability : List StudentAvailability) : List Subject :=
  subjects.filter fun subj =>
    subj.time_slots.all fun slot =>
      match avail_map_get availability slot.day with
      | none => false
      | some a =>
        a.time_slots.any fun av =>
          decide (av.start_time ≤ slot.start_time) && decide (av.end_time ≥ slot.end_time)

/-- `sum(1 for o in subjects if name in o.prerequisites)`: the
`dep_count` entry of `SchedulerService._apply_strategy`'s
`clear_dependencies` branch. -/
def dependents_count (subjects : List Subject) (name : String) : Nat :=
  subjects.countP (fun o => o.prerequisites.contains name)

/-- `SchedulerService._apply_strategy`.  Note that the backend has no
`INTEREST_BASED` branch: that strategy falls into the final `else`, which
sorts by `-credits` alone and consults no preference store. -/
def apply_strategy (subjects : List Subject) (prefs : SchedulingPreferences) :
    List Subject :=
  match prefs.strategy with
  | .maximize_subjects =>
    List.insertionSort (keyLE fun s => (s.total_minutes, -s.credits)) subjects
  | .clear_dependencies =>
    List.insertionSort
      (keyLE fun s => (-(dependents_count subjects s.name : Int), s.difficulty_level)) subjects
  | .balanced_difficulty =>
    List.insertionSort (keyLE fun s => (s.difficulty_level, -s.credits)) subjects
  | .high_value_credits =>
    List.insertionSort (keyLE fun s => (-s.credits, s.difficulty_level)) subjects
  | .interest_based =>
    List.insertionSort (key1LE fun s => -s.credits) subjects

/-- The loop of `SchedulerService._resolve_conflicts`: stop once the
target count is reached; skip a candidate whose slots overlap a used
slot; otherwise admit it and extend the used slots.  This function takes
no account of `prioritize_dependencies`. -/
def resolve_conflicts_go (prefs : SchedulingPreferences) :
    List Subject → List Subject → List TimeSlot → List Subject
  | [], final, _ => final
  | subj :: rest, final, used =>
    if prefs.subject_count ≤ final.length then final
    else if subj.time_slots.any (fun ss => used.any (fun us => ss.overlaps_with us)) then
      resolve_conflicts_go prefs rest final used
    else
      resolve_conflicts_go prefs rest (final ++ [subj]) (used ++ subj.time_slots)

/-- `SchedulerService._resolve_conflicts`. -/
def resolve_conflicts (subjects : List Subject) (prefs : SchedulingPreferences) :
    List Subject :=
  resolve_conflicts_go prefs subjects [] []

/-- `SchedulerService._analyze`.  The empty-schedule branch returns a
three-key dict whose only warning is `"No subjects could be scheduled"`.
Float thresholds are translated exactly: `total_hours > 40` iff the total
minute count exceeds 2400. -/
def analyze (schedule : List Subject) (prefs : SchedulingPreferences) :
    List (String × PyVal) :=
  if schedule.isEmpty then
    [("total_subjects", .int 0), ("total_credits", .int 0),
     ("warnings", .strList ["No subjects could be scheduled"])]
  else
    let totalMinutes : Int := (schedule.map Subject.total_minutes).sum
    let sumDiff : Int := (schedule.map Subject.difficulty_level).sum
    let n : Nat := schedule.length
    let warnings : List String :=
      (if n < prefs.subject_count then
        ["Only " ++ toString n ++ " subjects scheduled out of " ++
          toString prefs.subject_count]
       else [])
      ++ (if 2400 < totalMinutes then ["Schedule exceeds 40 hours per week"] else [])
    [("total_subjects", .int (n : Int)),
     ("total_credits", .int (sumCredits schedule)),
     ("total_hours", .hoursVal totalMinutes),
     ("average_difficulty", .avgVal sumDiff n),
     ("warnings", .strList warnings)]

/-- One entry of the backend result's `schedule` list:
`{'name': ..., 'code': ..., 'category': ..., 'credits': ..., 'difficulty': ...}`. -/
structure ScheduleEntry where
  name : String
  code : String
  category : String
  credits : Int
  difficulty : Int
deriving DecidableEq, Repr

/-- The backend's success result dict.  `timestamp` (a wall-clock read)
is not modelled.  Every pipeline stage below assembly is total, so the
top-level `except` branch is unreachable once the subject list has been
assembled; `success` is therefore always `true` here. -/
structure BackendResult where
  success : Bool
  schedule : List ScheduleEntry
  analysis : List (String × PyVal)
  total_subjects : Nat
  total_credits : Int
deriving DecidableEq, Repr

/-- `SchedulerService.create_optimal_schedule`, parameterised by the
assembled subject list (the catalog read plus uploads of
`_get_available_subjects`, an external collaborator). -/
def create_optimal_schedule (subjects : List Subject)
    (prefs : SchedulingPreferences) : BackendResult :=
  let compatible := filter_compatible subjects prefs.weekly_availability
  let prioritized := apply_strategy compatible prefs
  let final := resolve_conflicts prioritized prefs
  { success := true
    schedule := final.map (fun s => ⟨s.name, s.code, s.category, s.credits, s.difficulty_level⟩)
    analysis := analyze final prefs
    total_subjects := final.length
    total_credits := sumCredits final }

end SchedulerService

namespace SubjectScheduler

/-- The `day_mapping` table of `SubjectScheduler._normalize_day_name`. -/
def day_mapping : List (String × String) :=
  [("mon", "Monday"), ("monday", "Monday"),
   ("tue", "Tuesday"), ("tuesday", "Tuesday"),
   ("wed", "Wednesday"), ("wednesday", "Wednesday"),
   ("thu", "Thursday"), ("thursday", "Thursday"),
   ("fri", "Friday"), ("friday", "Friday"),
   ("sat", "Saturday"), ("saturday", "Saturday"),
   ("sun", "Sunday"), ("sunday", "Sunday")]

/-- `SubjectScheduler._normalize_day_name`:
`day_mapping.get(day.lower(), day.title())`. -/
def normalize_day_name (day : String) : String :=
  match day_mapping.lookup (pyLower day) with
  | some v => v
  | none => pyTitle day

/-- One segment of `SubjectScheduler._parse_subject_schedule`'s loop body
(cf. `SchedulerService.seg_slot`): `some slot` when the segment appends a
slot (day normalized), `none` when the structural checks skip it or when
time parsing raises. -/
def seg_slot (part : List Char) : Option TimeSlot :=
  let part := pyStrip part
  if part.isEmpty then none
  else
    match pySplitWs part with
    | t0 :: t1 :: _ =>
      let day := pyStrip t0
      let time_range := pyStrip t1
      if time_range.contains '-' then
        match pySplitChar '-' time_range with
        | [s1, s2] =>
          match strptimeHM (pyStrip s1), strptimeHM (pyStrip s2) with
          | some st, some en => some ⟨normalize_day_name (String.mk day), st, en⟩
          | _, _ => none
        | _ => none
      else none
    | _ => none

/-- Whether `SubjectScheduler._parse_subject_schedule`'s loop body raises
on this segment (tuple-unpacking `ValueError` on the `-`-split, or a
`strptime` failure). -/
def seg_raises (part : List Char) : Bool :=
  let part := pyStrip part
  if part.isEmpty then false
  else
    match pySplitWs part with
    | _ :: t1 :: _ =>
      let time_range := pyStrip t1
      if time_range.contains '-' then
        match pySplitChar '-' time_range with
        | [s1, s2] =>
          match strptimeHM (pyStrip s1), strptimeHM (pyStrip s2) with
          | some _, some _ => false
          | _, _ => true
        | _ => true
      else false
    | _ => false

/-- The comma-segment loop of `SubjectScheduler._parse_subject_schedule`;
like the backend loop, it runs inside one `try`, so a raising segment
returns the slots collected so far. -/
def parse_subject_schedule_go (slots : List TimeSlot) : List (List Char) → List TimeSlot
  | [] => slots
  | part :: rest =>
    let part := pyStrip part
    if part.isEmpty then parse_subject_schedule_go slots rest
    else
      match pySplitWs part with
      | t0 :: t1 :: _ =>
        let day := pyStrip t0
        let time_range := pyStrip t1
        if time_range.contains '-' then
          match pySplitChar '-' time_range with
          | [s1, s2] =>
            match strptimeHM (pyStrip s1), strptimeHM (pyStrip s2) with
            | some st, some en =>
              parse_subject_schedule_go
                (slots ++ [⟨normalize_day_name (String.mk day), st, en⟩]) rest
            | _, _ => slots
          | _ => slots
        else parse_subject_schedule_go slots rest
      | _ => parse_subject_schedule_go slots rest

/-- `SubjectScheduler._parse_subject_schedule`. -/
def parse_subject_schedule (schedule_str : String) : List TimeSlot :=
  if schedule_str = "" then []
  else parse_subject_schedule_go [] (pySplitChar ',' schedule_str.data)

/-- `SubjectScheduler._filter_compatible_subjects` (same containment rule
as the backend filter). -/
def filter_compatible_subjects (subjects : List Subject)
    (availability : List StudentAvailability) : List Subject :=
  subjects.filter fun subject =>
    subject.time_slots.all fun slot =>
      match SchedulerService.avail_map_get availability slot.day with
      | none => false
      | some a =>
        a.time_slots.any fun av =>
          decide (av.start_time ≤ slot.start_time) && decide (av.end_time ≥ slot.end_time)

/-- `SubjectScheduler._strategy_maximize_subjects`: sort by (total weekly
time ascending, credits descending). -/
def strategy_maximize_subjects (subjects : List Subject) : List Subject :=
  List.insertionSort (keyLE fun s => (s.total_minutes, -s.credits)) subjects

/-- `SubjectScheduler._strategy_clear_dependencies`: sort by (number of
candidates naming this subject as a prerequisite descending, difficulty
ascending); the dependency count is local to the candidate list. -/
def strategy_clear_dependencies (subjects : List Subject) : List Subject :=
  List.insertionSort
    (keyLE fun s =>
      (-(SchedulerService.dependents_count subjects s.name : Int), s.difficulty_level))
    subjects

/-- The key sequence of a dict built by `d[x] = ...` over the listed
keys: each key once, in first-occurrence order. -/
def dict_keys_in_order (seen : List Int) : List Int → List Int
  | [] => []
  | x :: xs =>
    if x ∈ seen then dict_keys_in_order seen xs
    else x :: dict_keys_in_order (seen ++ [x]) xs

/-- The distinct difficulty levels of the candidates —
`sorted(difficulty_groups.keys())` where the dict's keys appear in
first-occurrence order. -/
def balanced_levels (subjects : List Subject) : List Int :=
  List.insertionSort (key1LE id)
    (dict_keys_in_order [] (subjects.map (·.difficulty_level)))

/-- `SubjectScheduler._strategy_balanced_difficulty`: group the
candidates by difficulty level and concatenate, per level in ascending
order, the first `subject_count // number_of_levels + 1` of the group
sorted by credits descending.  With no candidates the dict of groups is
empty and `preferences.subject_count // len(difficulty_groups)` raises
`ZeroDivisionError`, embedded as the `error` case. -/
def strategy_balanced_difficulty (subjects : List Subject)
    (prefs : SchedulingPreferences) : Except String (List Subject) :=
  let levels := balanced_levels subjects
  if levels.isEmpty then .error "integer division or modulo by zero"
  else
    let max_per_level := prefs.subject_count / levels.length + 1
    .ok (levels.flatMap fun level =>
      (List.insertionSort (key1LE fun s => -s.credits)
        (subjects.filter (fun s => s.difficulty_level == level))).take max_per_level)

/-- The interest level the preference store records for a subject name:
`interest_map.get(subject.name, 0)` where `interest_map` is built by
successive assignment (last binding of a name wins), defaulting to 0. -/
def interest_level_of (iprefs : List (String × Int)) (name : String) : Int :=
  (dictGetLast iprefs name).getD 0

/-- `SubjectScheduler._strategy_interest_based`: sort by (recorded
interest level descending, credits descending).  `iprefs` is the snapshot
returned by the preference store for this student. -/
def strategy_interest_based (subjects : List Subject)
    (iprefs : List (String × Int)) : List Subject :=
  List.insertionSort
    (keyLE fun s => (-(interest_level_of iprefs s.name), -s.credits)) subjects

/-- `SubjectScheduler._strategy_high_value_credits`: sort by (credits
descending, difficulty ascending). -/
def strategy_high_value_credits (subjects : List Subject) : List Subject :=
  List.insertionSort (keyLE fun s => (-s.credits, s.difficulty_level)) subjects

/-- `SubjectScheduler._apply_scheduling_strategy`.  The `else` branch
(unreachable for the closed enum) and the `INTEREST_BASED` branch both
return the interest-based ordering. -/
def apply_scheduling_strategy (subjects : List Subject)
    (iprefs : List (String × Int)) (prefs : SchedulingPreferences) :
    Except String (List Subject) :=
  match prefs.strategy with
  | .maximize_subjects => .ok (strategy_maximize_subjects subjects)
  | .clear_dependencies => .ok (strategy_clear_dependencies subjects)
  | .balanced_difficulty => strategy_balanced_difficulty subjects prefs
  | .interest_based => .ok (strategy_interest_based subjects iprefs)
  | .high_value_credits => .ok (strategy_high_value_credits subjects)

/-- The loop of `SubjectScheduler._create_conflict_free_schedule`: stop
at the target count; when `prioritize_dependencies` is set, skip (without
admitting) any candidate with a prerequisite name not yet among the
admitted subjects; otherwise admit the candidate unless one of its slots
overlaps a used slot. -/
def create_conflict_free_schedule_go (prefs : SchedulingPreferences) :
    List Subject → List Subject → List TimeSlot → List Subject
  | [], final, _ => final
  | subject :: rest, final, used =>
    if prefs.subject_count ≤ final.length then final
    else
      let has_conflict :=
        subject.time_slots.any (fun ss => used.any (fun us => ss.overlaps_with us))
      if prefs.prioritize_dependencies &&
          subject.prerequisites.any (fun p => !final.any (fun s => s.name == p)) then
        create_conflict_free_schedule_go prefs rest final used
      else if !has_conflict then
        create_conflict_free_schedule_go prefs rest (final ++ [subject])
          (used ++ subject.time_slots)
      else create_conflict_free_schedule_go prefs rest final used

/-- `SubjectScheduler._create_conflict_free_schedule`. -/
def create_conflict_free_schedule (subjects : List Subject)
    (prefs : SchedulingPreferences) : List Subject :=
  create_conflict_free_schedule_go prefs subjects [] []

/-- `SubjectScheduler._analyze_schedule`.  Float thresholds are
translated exactly (`total_hours > 40` iff minutes > 2400;
`average_difficulty > 4` iff the difficulty sum exceeds `4 * count`). -/
def analyze_schedule (schedule : List Subject) (prefs : SchedulingPreferences) :
    List (String × PyVal) :=
  if schedule.isEmpty then
    [("total_subjects", .int 0), ("total_credits", .int 0),
     ("total_hours", .int 0),
     ("difficulty_distribution", .intMap []),
     ("category_distribution", .strMap []),
     ("warnings", .strList ["No subjects could be scheduled with current constraints"])]
  else
    let total_subjects : Nat := schedule.length
    let totalMinutes : Int := (schedule.map Subject.total_minutes).sum
    let sumDiff : Int := (schedule.map Subject.difficulty_level).sum
    let difficulty_dist := countMap (schedule.map (·.difficulty_level))
    let category_dist := countMap (schedule.map (·.category))
    let warnings : List String :=
      (if total_subjects < prefs.subject_count then
        ["Only " ++ toString total_subjects ++ " subjects scheduled out of requested " ++
          toString prefs.subject_count]
       else [])
      ++ (if 2400 < totalMinutes then
            ["Schedule exceeds 40 hours per week - consider reducing subjects"]
          else [])
      ++ (if 4 * (total_subjects : Int) < sumDiff then
            ["High average difficulty level - ensure adequate study time"]
          else [])
    let recommendations : List String :=
      if category_dist.length < 2 then
        ["Consider adding subjects from different categories for a balanced curriculum"]
      else []
    [("total_subjects", .int (total_subjects : Int)),
     ("total_credits", .int (sumCredits schedule)),
     ("total_hours", .hoursVal totalMinutes),
     ("average_difficulty", .avgVal sumDiff total_subjects),
     ("difficulty_distribution", .intMap difficulty_dist),
     ("category_distribution", .strMap category_dist),
     ("warnings", .strList warnings),
     ("recommendations", .strList recommendations),
     ("schedule_efficiency",
        if 0 < prefs.subject_count then .pctVal total_subjects prefs.subject_count
        else .int 0)]

/-- `SubjectScheduler.create_optimal_schedule` returns one of two dict
shapes: the success dict (`success: True` with schedule, analysis and
totals) or the failure dict (`success: False` with an error message);
`timestamp` is not modelled. -/
inductive AntigoResult where
  /-- The `success: True` result dict. -/
  | ok (schedule : List Subject) (analysis : List (String × PyVal))
      (total_subjects : Nat) (total_credits : Int)
  /-- The `success: False` result dict. -/
  | failure (error : String)
deriving DecidableEq, Repr

/-- `SubjectScheduler.create_optimal_schedule`, parameterised by the
assembled subject list and by the preference-store snapshot (both
external reads). -/
def create_optimal_schedule (subjects : List Subject)
    (iprefs : List (String × Int)) (prefs : SchedulingPreferences) : AntigoResult :=
  let compatible := filter_compatible_subjects subjects prefs.weekly_availability
  match apply_scheduling_strategy compatible iprefs prefs with
  | .error e => .failure ("Failed to create schedule: " ++ e)
  | .ok recommended =>
    let final := create_conflict_free_schedule recommended prefs
    .ok final (analyze_schedule final prefs) final.length (sumCredits final)

end SubjectScheduler

/-- Two subjects with no overlapping slots in either direction. -/
def slotsDisjoint (a b : Subject) : Prop :=
  ∀ sa ∈ a.time_slots, ∀ sb ∈ b.time_slots,
    sa.overlaps_with sb = false ∧ sb.overlaps_with sa = false

/-- In `l`, every subject's prerequisite names are carried by subjects
appearing strictly earlier in `l`. -/
def prereqs_satisfied_before (l : List Subject) : Prop :=
  ∀ l₁ s l₂, l = l₁ ++ s :: l₂ → ∀ p ∈ s.prerequisites, ∃ f ∈ l₁, f.name = p

/-! ## Concrete instances used by counterexamples and witnesses -/

/-- A prerequisite-free subject named `"A"` with no meeting slots. -/
def subjA : Subject := ⟨1, "A", "", "Core", 3, 1, [], []⟩

/-- A subject named `"B"` whose sole prerequisite is `"A"`. -/
def subjB : Subject := ⟨2, "B", "", "Core", 3, 1, ["A"], []⟩

/-- A request with `prioritize_dependencies = true`. -/
def prefsDeps : SchedulingPreferences := ⟨1, 5, .interest_based, true, false, [], ""⟩

/-- Subjects used by the interest-strategy claim: a low-credit subject the
student is very interested in... -/
def subjAlg : Subject := ⟨1, "Alg", "", "Core", 2, 1, [], []⟩

/-- ...and a higher-credit subject with no recorded preference. -/
def subjBask : Subject := ⟨2, "Basket", "", "Sports", 3, 1, [], []⟩

/-- Preference-store snapshot: interest 5 for `"Alg"`, nothing else. -/
def iprefsAlg : List (String × Int) := [("Alg", 5)]

/-- A request selecting the `interest_based` strategy. -/
def prefsInterest : SchedulingPreferences := ⟨1, 2, .interest_based, false, false, [], ""⟩

deriving instance DecidableEq for Except

/-- Two difficulty-1 subjects and one difficulty-2 subject, used by the
balanced-difficulty claim. -/
def subjL1a : Subject := ⟨1, "L1a", "", "Core", 1, 1, [], []⟩

/-- See `subjL1a`. -/
def subjL1b : Subject := ⟨2, "L1b", "", "Core", 1, 1, [], []⟩

/-- See `subjL1a`. -/
def subjL2c : Subject := ⟨3, "L2c", "", "Core", 1, 2, [], []⟩

/-- A request for two subjects under the `balanced_difficulty` strategy. -/
def prefsBal : SchedulingPreferences := ⟨1, 2, .balanced_difficulty, false, false, [], ""⟩

/-- A Monday-morning subject fitting the availability below. -/
def subjCalc : Subject := ⟨1, "Calc", "C1", "Math", 4, 2, [], [⟨"Monday", 540, 600⟩]⟩

/-- Monday availability 08:00-12:00. -/
def availMon : StudentAvailability := ⟨"Monday", true, [⟨"Monday", 480, 720⟩]⟩

/-- A one-subject `high_value_credits` request over that availability. -/
def prefsRun : SchedulingPreferences :=
  ⟨1, 1, .high_value_credits, false, false, [availMon], ""⟩

/-! ## Helper lemmas and predicates -/

/-- Overlap is symmetric (used both for claim C4 and to close the
conflict-freedom invariant of the resolvers). -/
theorem overlaps_with_comm (a b : TimeSlot) :
    a.overlaps_with b = b.overlaps_with a := by
  unfold TimeSlot.overlaps_with
  by_cases h : a.day = b.day
  · simp [h, ge_iff_le, Bool.or_comm]
  · simp [h, Ne.symm h]

theorem append_singleton_decomp {α : Type} {l l₁ l₂ : List α} {s s' : α}
    (h : l ++ [s] = l₁ ++ s' :: l₂) :
    (l₁ = l ∧ s' = s ∧ l₂ = []) ∨ ∃ l₂', l = l₁ ++ s' :: l₂' := by
  rcases l₂.eq_nil_or_concat with rfl | ⟨l₂', a, rfl⟩
  · have h' := List.append_inj' h (by rfl)
    exact Or.inl ⟨h'.1.symm, by simpa using h'.2.symm, rfl⟩
  · have h2 : l ++ [s] = (l₁ ++ s' :: l₂') ++ [a] := by
      simpa using h
    have h' := List.append_inj' h2 (by rfl)
    exact Or.inr ⟨l₂', h'.1⟩

theorem resolve_conflicts_go_pairwise (prefs : SchedulingPreferences) :
    ∀ (rest final : List Subject) (used : List TimeSlot),
    (∀ f ∈ final, ∀ sl ∈ f.time_slots, sl ∈ used) →
    final.Pairwise slotsDisjoint →
    (SchedulerService.resolve_conflicts_go prefs rest final used).Pairwise slotsDisjoint := by
  intro rest
  induction rest with
  | nil =>
    intro final used _ hpw
    simpa [SchedulerService.resolve_conflicts_go] using hpw
  | cons subj rest ih =>
    intro final used hsub hpw
    unfold SchedulerService.resolve_conflicts_go
    by_cases hc : prefs.subject_count ≤ final.length
    · simpa [hc] using hpw
    · simp only [if_neg hc]
      by_cases hconf :
          subj.time_slots.any (fun ss => used.any (fun us => ss.overlaps_with us)) = true
      · simpa [hconf] using ih final used hsub hpw
      · have hnc : ∀ sa ∈ subj.time_slots, ∀ us ∈ used, sa.overlaps_with us = false := by
          intro sa hsa us hus
          by_contra hk
          exact hconf (List.any_eq_true.mpr
            ⟨sa, hsa, List.any_eq_true.mpr ⟨us, hus, by simpa using hk⟩⟩)
        have hstep :
            (SchedulerService.resolve_conflicts_go prefs rest (final ++ [subj])
              (used ++ subj.time_slots)).Pairwise slotsDisjoint := by
          apply ih
          · intro f hf sl hsl
            rcases List.mem_append.mp hf with hf | hf
            · exact List.mem_append.mpr (Or.inl (hsub f hf sl hsl))
            · have : f = subj := by simpa using hf
              subst this
              exact List.mem_append.mpr (Or.inr hsl)
          · rw [List.pairwise_append]
            refine ⟨hpw, List.pairwise_singleton _ _, ?_⟩
            intro f hf s' hs'
            have : s' = subj := by simpa using hs'
            subst this
            intro sa hsa sb hsb
            have h1 : sb.overlaps_with sa = false := hnc sb hsb sa (hsub f hf sa hsa)
            exact ⟨by rw [overlaps_with_comm]; exact h1, h1⟩
        simpa [hconf] using hstep

theorem create_conflict_free_schedule_go_pairwise (prefs : SchedulingPreferences) :
    ∀ (rest final : List Subject) (used : List TimeSlot),
    (∀ f ∈ final, ∀ sl ∈ f.time_slots, sl ∈ used) →
    final.Pairwise slotsDisjoint →
    (SubjectScheduler.create_conflict_free_schedule_go prefs rest final used).Pairwise
      slotsDisjoint := by
  intro rest
  induction rest with
  | nil =>
    intro final used _ hpw
    simpa [SubjectScheduler.create_conflict_free_schedule_go] using hpw
  | cons subj rest ih =>
    intro final used hsub hpw
    unfold SubjectScheduler.create_conflict_free_schedule_go
    by_cases hc : prefs.subject_count ≤ final.length
    · simpa [hc] using hpw
    · simp only [if_neg hc]
      by_cases hskip :
          (prefs.prioritize_dependencies &&
            subj.prerequisites.any (fun p => !final.any (fun s => s.name == p))) = true
      · simpa [hskip] using ih final used hsub hpw
      · simp only [hskip, Bool.false_eq_true, if_false]
        by_cases hconf :
            subj.time_slots.any (fun ss => used.any (fun us => ss.overlaps_with us)) = true
        · simpa [hconf] using ih final used hsub hpw
        · have hnc : ∀ sa ∈ subj.time_slots, ∀ us ∈ used, sa.overlaps_with us = false := by
            intro sa hsa us hus
            by_contra hk
            exact hconf (List.any_eq_true.mpr
              ⟨sa, hsa, List.any_eq_true.mpr ⟨us, hus, by simpa using hk⟩⟩)
          have hstep :
              (SubjectScheduler.create_conflict_free_schedule_go prefs rest (final ++ [subj])
                (used ++ subj.time_slots)).Pairwise slotsDisjoint := by
            apply ih
            · intro f hf sl hsl
              rcases List.mem_append.mp hf with hf | hf
              · exact List.mem_append.mpr (Or.inl (hsub f hf sl hsl))
              · have : f = subj := by simpa using hf
                subst this
                exact List.mem_append.mpr (Or.inr hsl)
            · rw [List.pairwise_append]
              refine ⟨hpw, List.pairwise_singleton _ _, ?_⟩
              intro f hf s' hs'
              have : s' = subj := by simpa using hs'
              subst this
              intro sa hsa sb hsb
              have h1 : sb.overlaps_with sa = false := hnc sb hsb sa (hsub f hf sa hsa)
              exact ⟨by rw [overlaps_with_comm]; exact h1, h1⟩
          simpa [hconf] using hstep

theorem create_conflict_free_schedule_go_prereq (prefs : SchedulingPreferences)
    (hflag : prefs.prioritize_dependencies = true) :
    ∀ (rest final : List Subject) (used : List TimeSlot),
    prereqs_satisfied_before final →
    prereqs_satisfied_before
      (SubjectScheduler.create_conflict_free_schedule_go prefs rest final used) := by
  intro rest
  induction rest with
  | nil =>
    intro final used hP
    simpa [SubjectScheduler.create_conflict_free_schedule_go] using hP
  | cons subj rest ih =>
    intro final used hP
    unfold SubjectScheduler.create_conflict_free_schedule_go
    by_cases hc : prefs.subject_count ≤ final.length
    · simpa [hc] using hP
    · simp only [if_neg hc]
      by_cases hskip :
          (prefs.prioritize_dependencies &&
            subj.prerequisites.any (fun p => !final.any (fun s => s.name == p))) = true
      · simpa [hskip] using ih final used hP
      · simp only [hskip, Bool.false_eq_true, if_false]
        have hsat : ∀ p ∈ subj.prerequisites, ∃ f ∈ final, f.name = p := by
          intro p hp
          have h2 : subj.prerequisites.any (fun q => !final.any (fun s => s.name == q)) = false := by
            cases h : subj.prerequisites.any (fun q => !final.any (fun s => s.name == q)) with
            | false => rfl
            | true => exact absurd (by rw [Bool.and_eq_true]; exact ⟨hflag, h⟩) hskip
          have h3 := List.any_eq_false.mp h2 p hp
          have h4 : final.any (fun s => s.name == p) = true := by
            cases h : final.any (fun s => s.name == p) with
            | true => rfl
            | false => exact absurd (by simp [h]) h3
          obtain ⟨f, hf, hname⟩ := List.any_eq_true.mp h4
          exact ⟨f, hf, by simpa using hname⟩
        have hPs : prereqs_satisfied_before (final ++ [subj]) := by
          intro l₁ s l₂ heq p hp
          rcases append_singleton_decomp heq with ⟨rfl, rfl, rfl⟩ | ⟨l₂', heq'⟩
          · exact hsat p hp
          · exact hP l₁ s l₂' heq' p hp
        by_cases hconf :
            subj.time_slots.any (fun ss => used.any (fun us => ss.overlaps_with us)) = true
        · simpa [hconf] using ih final used hP
        · simpa [hconf] using ih (final ++ [subj]) (used ++ subj.time_slots) hPs

theorem resolve_conflicts_go_length (prefs : SchedulingPreferences) :
    ∀ (rest final : List Subject) (used : List TimeSlot),
    final.length ≤ prefs.subject_count →
    (SchedulerService.resolve_conflicts_go prefs rest final used).length ≤
      prefs.subject_count := by
  intro rest
  induction rest with
  | nil =>
    intro final used h
    simpa [SchedulerService.resolve_conflicts_go] using h
  | cons subj rest ih =>
    intro final used h
    unfold SchedulerService.resolve_conflicts_go
    by_cases hc : prefs.subject_count ≤ final.length
    · simpa [hc] using h
    · simp only [if_neg hc]
      by_cases hconf :
          subj.time_slots.any (fun ss => used.any (fun us => ss.overlaps_with us)) = true
      · simpa [hconf] using ih final used h
      · have hlt : final.length < prefs.subject_count := Nat.lt_of_not_le hc
        have := ih (final ++ [subj]) (used ++ subj.time_slots) (by
          simpa [List.length_append] using hlt)
        simpa [hconf] using this

theorem create_conflict_free_schedule_go_length (prefs : SchedulingPreferences) :
    ∀ (rest final : List Subject) (used : List TimeSlot),
    final.length ≤ prefs.subject_count →
    (SubjectScheduler.create_conflict_free_schedule_go prefs rest final used).length ≤
      prefs.subject_count := by
  intro rest
  induction rest with
  | nil =>
    intro final used h
    simpa [SubjectScheduler.create_conflict_free_schedule_go] using h
  | cons subj rest ih =>
    intro final used h
    unfold SubjectScheduler.create_conflict_free_schedule_go
    by_cases hc : prefs.subject_count ≤ final.length
    · simpa [hc] using h
    · simp only [if_neg hc]
      by_cases hskip :
          (prefs.prioritize_dependencies &&
            subj.prerequisites.any (fun p => !final.any (fun s => s.name == p))) = true
      · simpa [hskip] using ih final used h
      · simp only [hskip, Bool.false_eq_true, if_false]
        by_cases hconf :
            subj.time_slots.any (fun ss => used.any (fun us => ss.overlaps_with us)) = true
        · simpa [hconf] using ih final used h
        · have hlt : final.length < prefs.subject_count := Nat.lt_of_not_le hc
          have := ih (final ++ [subj]) (used ++ subj.time_slots) (by
            simpa [List.length_append] using hlt)
          simpa [hconf] using this

/-! ## Claims -/

/-- C1 (amended).  When `prioritize_dependencies = true`, the
`SubjectScheduler` conflict resolver admits a subject only when every one
of its prerequisites already appears, by name, strictly earlier in the
schedule being built — which implies the claimed property that pool-present
admittable prerequisites appear earlier (the subject has zero unmet
prerequisites of any kind at its admission).  The backend
`SchedulerService._resolve_conflicts` ignores `prioritize_dependencies`
altogether; see the counterexample. -/
theorem C1_prereq_ordering (subjects : List Subject) (prefs : SchedulingPreferences)
    (hflag : prefs.prioritize_dependencies = true) :
    prereqs_satisfied_before (SubjectScheduler.create_conflict_free_schedule subjects prefs) := by
  apply create_conflict_free_schedule_go_prereq prefs hflag
  intro l₁ s l₂ heq
  exact absurd heq (by simp)

/-- Witness for C1: on the pool `[A, B]` (with `B` requiring `A`) the
`SubjectScheduler` resolver admits both, in prerequisite-respecting
order. -/
theorem C1_prereq_ordering_witness :
    SubjectScheduler.create_conflict_free_schedule [subjA, subjB] prefsDeps =
      [subjA, subjB] ∧
    prereqs_satisfied_before
      (SubjectScheduler.create_conflict_free_schedule [subjA, subjB] prefsDeps) :=
  ⟨by decide, C1_prereq_ordering [subjA, subjB] prefsDeps rfl⟩

/-- Counterexample for C1 as stated: with `prioritize_dependencies = true`
the backend resolver admits `B` (whose prerequisite `A` is in the pool and
is itself admitted, hence admittable) *before* `A`, so `B`'s pool-present
admittable prerequisite neither appears earlier nor is met at `B`'s
admission. -/
theorem C1_counterexample :
    prefsDeps.prioritize_dependencies = true ∧
    SchedulerService.resolve_conflicts [subjB, subjA] prefsDeps = [subjB, subjA] ∧
    subjA.name ∈ subjB.prerequisites ∧
    ¬ prereqs_satisfied_before (SchedulerService.resolve_conflicts [subjB, subjA] prefsDeps) := by
  refine ⟨rfl, by decide, by decide, ?_⟩
  intro h
  obtain ⟨f, hf, _⟩ := h [] subjB [subjA] (by decide) "A" (by decide)
  exact absurd hf (by simp)

/-- C2.  Both conflict resolvers produce schedules in which no two
distinct admitted subjects have overlapping time slots (in either
direction). -/
theorem C2_no_conflicts (subjects : List Subject) (prefs : SchedulingPreferences) :
    (SchedulerService.resolve_conflicts subjects prefs).Pairwise slotsDisjoint ∧
    (SubjectScheduler.create_conflict_free_schedule subjects prefs).Pairwise slotsDisjoint :=
  ⟨resolve_conflicts_go_pairwise prefs subjects [] [] (by simp) List.Pairwise.nil,
   create_conflict_free_schedule_go_pairwise prefs subjects [] [] (by simp) List.Pairwise.nil⟩

/-- C3.  Both conflict resolvers admit at most `subject_count` subjects. -/
theorem C3_capacity (subjects : List Subject) (prefs : SchedulingPreferences) :
    (SchedulerService.resolve_conflicts subjects prefs).length ≤ prefs.subject_count ∧
    (SubjectScheduler.create_conflict_free_schedule subjects prefs).length ≤
      prefs.subject_count :=
  ⟨resolve_conflicts_go_length prefs subjects [] [] (by simp),
   create_conflict_free_schedule_go_length prefs subjects [] [] (by simp)⟩

/-- C4.  `overlaps_with` is symmetric for all slots; equal-day slots that
merely touch (`09:00-10:00` vs `10:00-11:00`) do not overlap, while
properly intersecting equal-day slots (`09:00-10:30` vs `10:00-11:00`)
do. -/
theorem C4_overlap_symmetry_boundary :
    (∀ a b : TimeSlot, a.overlaps_with b = b.overlaps_with a) ∧
    TimeSlot.overlaps_with ⟨"Monday", 540, 600⟩ ⟨"Monday", 600, 660⟩ = false ∧
    TimeSlot.overlaps_with ⟨"Monday", 540, 630⟩ ⟨"Monday", 600, 660⟩ = true :=
  ⟨overlaps_with_comm, by decide, by decide⟩

theorem parse_schedule_go_no_raise :
    ∀ (parts : List (List Char)),
    (∀ p ∈ parts, SchedulerService.seg_raises p = false) →
    ∀ slots, SchedulerService.parse_schedule_go slots parts =
      slots ++ parts.filterMap SchedulerService.seg_slot := by
  intro parts
  induction parts with
  | nil => intro _ slots; simp [SchedulerService.parse_schedule_go]
  | cons part rest ih =>
    intro hnr slots
    have hnrp : SchedulerService.seg_raises part = false := hnr part (by simp)
    have hnrr : ∀ p ∈ rest, SchedulerService.seg_raises p = false :=
      fun p hp => hnr p (by simp [hp])
    by_cases h1 : (pyStrip part).isEmpty
    · simp only [SchedulerService.parse_schedule_go, SchedulerService.seg_slot,
        List.filterMap_cons, h1, if_true]
      exact ih hnrr slots
    · rcases h2 : pySplitWs (pyStrip part) with _ | ⟨t0, _ | ⟨t1, ts⟩⟩
      · simp only [SchedulerService.parse_schedule_go, SchedulerService.seg_slot,
          List.filterMap_cons, h1, if_false, h2]
        exact ih hnrr slots
      · simp only [SchedulerService.parse_schedule_go, SchedulerService.seg_slot,
          List.filterMap_cons, h1, if_false, h2]
        exact ih hnrr slots
      · by_cases h3 : t1.contains '-'
        · rcases h4 : pySplitChar '-' t1 with _ | ⟨s1, _ | ⟨s2, _ | _⟩⟩
          · exfalso
            simp only [SchedulerService.seg_raises, h1, h2, h3, h4] at hnrp
            simp at hnrp
          · exfalso
            simp only [SchedulerService.seg_raises, h1, h2, h3, h4] at hnrp
            simp at hnrp
          · rcases h5 : strptimeHM (pyStrip s1) with _ | st
            · exfalso
              simp only [SchedulerService.seg_raises, h1, h2, h3, h4, h5] at hnrp
              simp at hnrp
            · rcases h6 : strptimeHM (pyStrip s2) with _ | en
              · exfalso
                simp only [SchedulerService.seg_raises, h1, h2, h3, h4, h5, h6] at hnrp
                simp at hnrp
              · simp only [SchedulerService.parse_schedule_go, SchedulerService.seg_slot,
                  List.filterMap_cons, h1, if_false, h2, h3, if_true, h4, h5, h6]
                simp [ih hnrr]
          · exfalso
            simp only [SchedulerService.seg_raises, h1, h2, h3, h4] at hnrp
            simp at hnrp
        · simp only [SchedulerService.parse_schedule_go, SchedulerService.seg_slot,
            List.filterMap_cons, h1, if_false, h2, h3, if_false]
          exact ih hnrr slots

theorem parse_subject_schedule_go_no_raise :
    ∀ (parts : List (List Char)),
    (∀ p ∈ parts, SubjectScheduler.seg_raises p = false) →
    ∀ slots, SubjectScheduler.parse_subject_schedule_go slots parts =
      slots ++ parts.filterMap SubjectScheduler.seg_slot := by
  intro parts
  induction parts with
  | nil => intro _ slots; simp [SubjectScheduler.parse_subject_schedule_go]
  | cons part rest ih =>
    intro hnr slots
    have hnrp : SubjectScheduler.seg_raises part = false := hnr part (by simp)
    have hnrr : ∀ p ∈ rest, SubjectScheduler.seg_raises p = false :=
      fun p hp => hnr p (by simp [hp])
    by_cases h1 : (pyStrip part).isEmpty
    · simp only [SubjectScheduler.parse_subject_schedule_go, SubjectScheduler.seg_slot,
        List.filterMap_cons, h1, if_true]
      exact ih hnrr slots
    · rcases h2 : pySplitWs (pyStrip part) with _ | ⟨t0, _ | ⟨t1, ts⟩⟩
      · simp only [SubjectScheduler.parse_subject_schedule_go, SubjectScheduler.seg_slot,
          List.filterMap_cons, h1, if_false, h2]
        exact ih hnrr slots
      · simp only [SubjectScheduler.parse_subject_schedule_go, SubjectScheduler.seg_slot,
          List.filterMap_cons, h1, if_false, h2]
        exact ih hnrr slots
      · by_cases h3 : (pyStrip t1).contains '-'
        · rcases h4 : pySplitChar '-' (pyStrip t1) with _ | ⟨s1, _ | ⟨s2, _ | _⟩⟩
          · exfalso
            simp only [SubjectScheduler.seg_raises, h1, h2, h3, h4] at hnrp
            simp at hnrp
          · exfalso
            simp only [SubjectScheduler.seg_raises, h1, h2, h3, h4] at hnrp
            simp at hnrp
          · rcases h5 : strptimeHM (pyStrip s1) with _ | st
            · exfalso
              simp only [SubjectScheduler.seg_raises, h1, h2, h3, h4, h5] at hnrp
              simp at hnrp
            · rcases h6 : strptimeHM (pyStrip s2) with _ | en
              · exfalso
                simp only [SubjectScheduler.seg_raises, h1, h2, h3, h4, h5, h6] at hnrp
                simp at hnrp
              · simp only [SubjectScheduler.parse_subject_schedule_go,
                  SubjectScheduler.seg_slot, List.filterMap_cons, h1, if_false, h2, h3,
                  if_true, h4, h5, h6]
                simp [ih hnrr]
          · exfalso
            simp only [SubjectScheduler.seg_raises, h1, h2, h3, h4] at hnrp
            simp at hnrp
        · simp only [SubjectScheduler.parse_subject_schedule_go, SubjectScheduler.seg_slot,
            List.filterMap_cons, h1, if_false, h2, h3, if_false]
          exact ih hnrr slots

/-- C5 (amended).  The parsers skip *structurally* malformed segments
(blank, fewer than two tokens, or a time token without `-`) and continue
with the remaining segments; however the whole segment loop runs inside a
single `try`, so the first segment whose time range *raises* during
parsing (a `-`-split without exactly two pieces, or a `strptime` failure)
aborts the remainder of the parse with a logged warning, returning only
the slots collected before it.  Provided no segment raises, each parser
returns exactly the slots of all well-formed segments. -/
theorem C5_skip_malformed_segments (s : String)
    (hnr : ∀ part ∈ pySplitChar ',' s.data,
      SchedulerService.seg_raises part = false ∧ SubjectScheduler.seg_raises part = false) :
    SchedulerService.parse_schedule s =
      (pySplitChar ',' s.data).filterMap SchedulerService.seg_slot ∧
    SubjectScheduler.parse_subject_schedule s =
      (pySplitChar ',' s.data).filterMap SubjectScheduler.seg_slot := by
  constructor
  · unfold SchedulerService.parse_schedule
    by_cases hs : s = ""
    · subst hs; decide
    · simp only [hs, if_false]
      exact parse_schedule_go_no_raise _ (fun p hp => (hnr p hp).1) []
  · unfold SubjectScheduler.parse_subject_schedule
    by_cases hs : s = ""
    · subst hs; decide
    · simp only [hs, if_false]
      exact parse_subject_schedule_go_no_raise _ (fun p hp => (hnr p hp).2) []

/-- Witness for C5: a schedule string with a structurally malformed middle
segment (`"garbage"`, one token) — both parsers skip it and still return
the slots of the two well-formed segments around it. -/
theorem C5_skip_malformed_segments_witness :
    (SchedulerService.parse_schedule "Mon 09:00-11:00, garbage, Wed 14:00-16:00" =
      (pySplitChar ',' ("Mon 09:00-11:00, garbage, Wed 14:00-16:00").data).filterMap
        SchedulerService.seg_slot ∧
     SubjectScheduler.parse_subject_schedule "Mon 09:00-11:00, garbage, Wed 14:00-16:00" =
      (pySplitChar ',' ("Mon 09:00-11:00, garbage, Wed 14:00-16:00").data).filterMap
        SubjectScheduler.seg_slot) ∧
    SchedulerService.parse_schedule "Mon 09:00-11:00, garbage, Wed 14:00-16:00" =
      [⟨"Mon", 540, 660⟩, ⟨"Wed", 840, 960⟩] :=
  ⟨C5_skip_malformed_segments "Mon 09:00-11:00, garbage, Wed 14:00-16:00" (by decide),
   by decide⟩

/-- Counterexample for C5 as stated: in `"Mon 9h-11h, Wed 14:00-16:00"`
the first segment raises inside `strptime` (`"9h"` is not `HH:MM`), and
both parsers abort, dropping the perfectly well-formed `Wed` segment —
which each parser accepts when given alone — instead of skipping the bad
segment and continuing. -/
theorem C5_counterexample :
    SchedulerService.parse_schedule "Mon 9h-11h, Wed 14:00-16:00" = [] ∧
    SubjectScheduler.parse_subject_schedule "Mon 9h-11h, Wed 14:00-16:00" = [] ∧
    SchedulerService.parse_schedule "Wed 14:00-16:00" = [⟨"Wed", 840, 960⟩] ∧
    SubjectScheduler.parse_subject_schedule "Wed 14:00-16:00" = [⟨"Wednesday", 840, 960⟩] := by
  decide

/-- C6 (amended).  In the `SubjectScheduler` parser the day token of every
produced slot is normalized by `_normalize_day_name`: the token is
lowercased and looked up in the fixed abbreviation table (so the lookup is
case-insensitive), and an unrecognized token falls back to title-casing
the raw input rather than erroring.  The backend `_parse_schedule` applies
no such normalization (see the counterexample). -/
theorem C6_day_normalization :
    (∀ d v, SubjectScheduler.day_mapping.lookup (pyLower d) = some v →
      SubjectScheduler.normalize_day_name d = v) ∧
    (∀ d, SubjectScheduler.day_mapping.lookup (pyLower d) = none →
      SubjectScheduler.normalize_day_name d = pyTitle d) ∧
    SubjectScheduler.normalize_day_name "MON" = "Monday" ∧
    SubjectScheduler.normalize_day_name "Tue" = "Tuesday" ∧
    SubjectScheduler.normalize_day_name "wednesday" = "Wednesday" ∧
    SubjectScheduler.normalize_day_name "THURSDAY" = "Thursday" ∧
    SubjectScheduler.normalize_day_name "fri" = "Friday" ∧
    SubjectScheduler.normalize_day_name "Saturday" = "Saturday" ∧
    SubjectScheduler.normalize_day_name "sUn" = "Sunday" ∧
    SubjectScheduler.normalize_day_name "xyz" = "Xyz" ∧
    SubjectScheduler.parse_subject_schedule "mon 09:00-10:00" =
      [⟨"Monday", 540, 600⟩] := by
  refine ⟨?_, ?_, by decide, by decide, by decide, by decide, by decide, by decide,
    by decide, by decide, by decide⟩
  · intro d v h
    unfold SubjectScheduler.normalize_day_name
    rw [h]
  · intro d h
    unfold SubjectScheduler.normalize_day_name
    rw [h]

/-- Witness for C6: the table lookup branch fires on the upper-cased
abbreviation `"MON"` and the title-case fallback fires on `"xyz"`. -/
theorem C6_day_normalization_witness :
    (SubjectScheduler.day_mapping.lookup (pyLower "MON") = some "Monday" ∧
     SubjectScheduler.normalize_day_name "MON" = "Monday") ∧
    (SubjectScheduler.day_mapping.lookup (pyLower "xyz") = none ∧
     SubjectScheduler.normalize_day_name "xyz" = pyTitle "xyz") :=
  ⟨⟨by decide, C6_day_normalization.1 "MON" "Monday" (by decide)⟩,
   ⟨by decide, C6_day_normalization.2.1 "xyz" (by decide)⟩⟩

/-- Counterexample for C6 as stated: the backend parser — one of the two
parsers the claim covers — leaves the day token of a well-formed segment
un-normalized: `"mon 09:00-10:00"` yields day `"mon"`, not `"Monday"`. -/
theorem C6_counterexample :
    SchedulerService.parse_schedule "mon 09:00-10:00" = [⟨"mon", 540, 600⟩] ∧
    SubjectScheduler.normalize_day_name "mon" = "Monday" ∧
    ("mon" : String) ≠ "Monday" := by
  decide

/-- C9 (amended).  On an empty final schedule the `SubjectScheduler`
analyzer returns all totals zero, empty distributions and exactly one
warning, `"No subjects could be scheduled with current constraints"`,
with no further computation; the backend analyzer also returns zero
totals and exactly one warning, but with the shorter text
`"No subjects could be scheduled"` (and without the `total_hours` and
distribution keys). -/
theorem C9_empty_schedule_analysis (prefs : SchedulingPreferences) :
    SubjectScheduler.analyze_schedule [] prefs =
      [("total_subjects", .int 0), ("total_credits", .int 0),
       ("total_hours", .int 0),
       ("difficulty_distribution", .intMap []),
       ("category_distribution", .strMap []),
       ("warnings", .strList ["No subjects could be scheduled with current constraints"])] ∧
    SchedulerService.analyze [] prefs =
      [("total_subjects", .int 0), ("total_credits", .int 0),
       ("warnings", .strList ["No subjects could be scheduled"])] :=
  ⟨rfl, rfl⟩

/-- Counterexample for C9 as stated: the backend analyzer — one of the two
analyzers the claim covers — warns with `"No subjects could be scheduled"`,
not the claimed `"No subjects could be scheduled with current
constraints"`. -/
theorem C9_counterexample :
    (SchedulerService.analyze [] prefsDeps).lookup "warnings" =
      some (.strList ["No subjects could be scheduled"]) ∧
    ("No subjects could be scheduled" : String) ≠
      "No subjects could be scheduled with current constraints" := by
  decide

/-- C8 (amended).  The `SubjectScheduler` interest strategy (also reached
from its `INTEREST_BASED` dispatch branch) is a permutation of the
candidates ordered by recorded interest level descending with credits
descending as secondary key, the interest level defaulting to 0 for a
subject name with no preference on file.  The backend has no
`interest_based` branch at all: its `INTEREST_BASED`/default case sorts by
credits descending alone, ignoring the preference store (see the
counterexample). -/
theorem C8_interest_strategy (subjects : List Subject) (iprefs : List (String × Int)) :
    (SubjectScheduler.strategy_interest_based subjects iprefs).Perm subjects ∧
    (SubjectScheduler.strategy_interest_based subjects iprefs).Pairwise
      (fun a b =>
        SubjectScheduler.interest_level_of iprefs b.name <
          SubjectScheduler.interest_level_of iprefs a.name ∨
        (SubjectScheduler.interest_level_of iprefs a.name =
            SubjectScheduler.interest_level_of iprefs b.name ∧ b.credits ≤ a.credits)) ∧
    (∀ name, dictGetLast iprefs name = none →
      SubjectScheduler.interest_level_of iprefs name = 0) ∧
    (∀ prefs : SchedulingPreferences, prefs.strategy = .interest_based →
      SubjectScheduler.apply_scheduling_strategy subjects iprefs prefs =
        .ok (SubjectScheduler.strategy_interest_based subjects iprefs)) ∧
    (∀ prefs : SchedulingPreferences, prefs.strategy = .interest_based →
      (SchedulerService.apply_strategy subjects prefs).Perm subjects ∧
      (SchedulerService.apply_strategy subjects prefs).Pairwise
        (fun a b => b.credits ≤ a.credits)) := by
  refine ⟨List.perm_insertionSort _ _, ?_, ?_, ?_, ?_⟩
  · have hs := List.sorted_insertionSort
      (keyLE fun s : Subject =>
        (-(SubjectScheduler.interest_level_of iprefs s.name), -s.credits)) subjects
    exact hs.imp (fun h => by
      simp only [keyLE, lexLE] at h
      omega)
  · intro name h
    unfold SubjectScheduler.interest_level_of
    rw [h]
    rfl
  · intro prefs h
    unfold SubjectScheduler.apply_scheduling_strategy
    rw [h]
  · intro prefs h
    unfold SchedulerService.apply_strategy
    rw [h]
    refine ⟨List.perm_insertionSort _ _, ?_⟩
    have hs := List.sorted_insertionSort (key1LE fun s : Subject => -s.credits) subjects
    exact hs.imp (fun h => by
      simp only [key1LE] at h
      omega)

/-- Witness for C8: the default-0 rule, the dispatch equations and the
backend ordering, instantiated on the two concrete subjects. -/
theorem C8_interest_strategy_witness :
    SubjectScheduler.interest_level_of iprefsAlg "Basket" = 0 ∧
    SubjectScheduler.apply_scheduling_strategy [subjAlg, subjBask] iprefsAlg prefsInterest =
      .ok (SubjectScheduler.strategy_interest_based [subjAlg, subjBask] iprefsAlg) ∧
    (SchedulerService.apply_strategy [subjAlg, subjBask] prefsInterest).Pairwise
      (fun a b => b.credits ≤ a.credits) ∧
    SubjectScheduler.strategy_interest_based [subjAlg, subjBask] iprefsAlg =
      [subjAlg, subjBask] :=
  ⟨(C8_interest_strategy [subjAlg, subjBask] iprefsAlg).2.2.1 "Basket" (by decide),
   (C8_interest_strategy [subjAlg, subjBask] iprefsAlg).2.2.2.1 prefsInterest rfl,
   ((C8_interest_strategy [subjAlg, subjBask] iprefsAlg).2.2.2.2 prefsInterest rfl).2,
   by decide⟩

/-- Counterexample for C8 as stated: the backend — one of the two cited
implementations — orders `interest_based` candidates by credits alone:
with interest 5 on file for `"Alg"` (and 0 for `"Basket"`), it still puts
the 3-credit `"Basket"` before the 2-credit `"Alg"`, so the output is not
ordered by interest level descending.  (The antigo strategy orders them
correctly.) -/
theorem C8_counterexample :
    SchedulerService.apply_strategy [subjAlg, subjBask] prefsInterest = [subjBask, subjAlg] ∧
    SubjectScheduler.interest_level_of iprefsAlg "Alg" = 5 ∧
    SubjectScheduler.interest_level_of iprefsAlg "Basket" = 0 ∧
    ¬ (SchedulerService.apply_strategy [subjAlg, subjBask] prefsInterest).Pairwise
        (fun a b =>
          SubjectScheduler.interest_level_of iprefsAlg b.name <
            SubjectScheduler.interest_level_of iprefsAlg a.name ∨
          (SubjectScheduler.interest_level_of iprefsAlg a.name =
              SubjectScheduler.interest_level_of iprefsAlg b.name ∧ b.credits ≤ a.credits)) ∧
    SubjectScheduler.strategy_interest_based [subjAlg, subjBask] iprefsAlg =
      [subjAlg, subjBask] := by
  refine ⟨by decide, by decide, by decide, ?_, by decide⟩
  intro h
  have heq : SchedulerService.apply_strategy [subjAlg, subjBask] prefsInterest =
      [subjBask, subjAlg] := by decide
  rw [heq] at h
  have := List.rel_of_pairwise_cons h (List.mem_singleton.mpr rfl)
  revert this
  decide

theorem dict_keys_in_order_nodup :
    ∀ (l seen : List Int),
    (SubjectScheduler.dict_keys_in_order seen l).Nodup ∧
    ∀ x ∈ SubjectScheduler.dict_keys_in_order seen l, x ∉ seen := by
  intro l
  induction l with
  | nil => intro seen; simp [SubjectScheduler.dict_keys_in_order]
  | cons x xs ih =>
    intro seen
    unfold SubjectScheduler.dict_keys_in_order
    by_cases hx : x ∈ seen
    · simpa [hx] using ih seen
    · obtain ⟨hnd, hns⟩ := ih (seen ++ [x])
      simp only [hx, if_false]
      constructor
      · refine List.nodup_cons.mpr ⟨?_, hnd⟩
        intro hmem
        exact hns x hmem (by simp)
      · intro y hy
        rcases List.mem_cons.mp hy with rfl | hy
        · exact hx
        · intro hseen
          exact hns y hy (by simp [hseen])

theorem balanced_levels_nodup (subjects : List Subject) :
    (SubjectScheduler.balanced_levels subjects).Nodup := by
  unfold SubjectScheduler.balanced_levels
  exact (List.perm_insertionSort _ _).nodup_iff.mpr
    (dict_keys_in_order_nodup (subjects.map (·.difficulty_level)) []).1

theorem balanced_levels_sorted (subjects : List Subject) :
    (SubjectScheduler.balanced_levels subjects).Pairwise (· ≤ ·) := by
  unfold SubjectScheduler.balanced_levels
  have := List.sorted_insertionSort (key1LE (id : Int → Int))
    (SubjectScheduler.dict_keys_in_order [] (subjects.map (·.difficulty_level)))
  exact this.imp (fun h => h)

theorem countP_flatMap {α β : Type} (f : α → List β) (p : β → Bool) :
    ∀ l : List α, (l.flatMap f).countP p = (l.map (fun a => (f a).countP p)).sum := by
  intro l
  induction l with
  | nil => simp
  | cons a l ih => simp [List.flatMap_cons, List.countP_append, ih]

/-- Members of the per-level chunk of the balanced strategy all carry that
difficulty level. -/
theorem balanced_chunk_difficulty (subjects : List Subject) (cap : Nat) (level : Int) :
    ∀ x ∈ (List.insertionSort (key1LE fun s : Subject => -s.credits)
        (subjects.filter (fun s => s.difficulty_level == level))).take cap,
      x.difficulty_level = level := by
  intro x hx
  have hx2 := (List.take_sublist cap _).subset hx
  have hx3 := ((List.perm_insertionSort
    (key1LE fun s : Subject => -s.credits)
    (subjects.filter (fun s => s.difficulty_level == level))).mem_iff).mp hx2
  have := List.of_mem_filter hx3
  simpa using this

/-- C7 (amended).  When it succeeds (i.e. the candidate list is
non-empty; on an empty list the per-level division raises
`ZeroDivisionError`), the `SubjectScheduler` balanced_difficulty strategy
groups candidates by difficulty level and outputs, per level in ascending
level order, at most `subject_count // number_of_distinct_levels + 1`
subjects (floor-division plus one — not `ceil(subject_count / levels)` as
claimed), ordered by credits descending within each level.  The backend's
`balanced_difficulty` branch instead returns *all* candidates sorted by
(difficulty ascending, credits descending) with no per-level cap. -/
theorem C7_balanced_difficulty (subjects : List Subject) (prefs : SchedulingPreferences)
    (out : List Subject)
    (hok : SubjectScheduler.strategy_balanced_difficulty subjects prefs = .ok out) :
    (∀ l : Int, out.countP (fun s => s.difficulty_level == l) ≤
      prefs.subject_count / (SubjectScheduler.balanced_levels subjects).length + 1) ∧
    out.Pairwise (fun a b => a.difficulty_level ≤ b.difficulty_level) ∧
    out.Pairwise (fun a b => a.difficulty_level = b.difficulty_level → b.credits ≤ a.credits) ∧
    (∀ prefs2 : SchedulingPreferences, prefs2.strategy = .balanced_difficulty →
      (SchedulerService.apply_strategy subjects prefs2).Perm subjects ∧
      (SchedulerService.apply_strategy subjects prefs2).Pairwise
        (fun a b => a.difficulty_level < b.difficulty_level ∨
          (a.difficulty_level = b.difficulty_level ∧ b.credits ≤ a.credits))) := by
  unfold SubjectScheduler.strategy_balanced_difficulty at hok
  by_cases hemp : (SubjectScheduler.balanced_levels subjects).isEmpty
  · rw [if_pos hemp] at hok
    exact absurd hok (by simp)
  · rw [if_neg hemp] at hok
    have hout := Except.ok.inj hok
    set cap := prefs.subject_count / (SubjectScheduler.balanced_levels subjects).length + 1
      with hcap
    set chunk := fun level : Int =>
      (List.insertionSort (key1LE fun s : Subject => -s.credits)
        (subjects.filter (fun s => s.difficulty_level == level))).take cap with hchunk
    refine ⟨?_, ?_, ?_, ?_⟩
    · intro l
      rw [← hout, countP_flatMap]
      have hterm_ne : ∀ lvl, lvl ≠ l →
          (chunk lvl).countP (fun s => s.difficulty_level == l) = 0 := by
        intro lvl hne
        apply List.countP_eq_zero.mpr
        intro x hx
        have := balanced_chunk_difficulty subjects cap lvl x hx
        simp [this, hne]
      have hterm_le : (chunk l).countP (fun s => s.difficulty_level == l) ≤ cap := by
        calc (chunk l).countP (fun s => s.difficulty_level == l) ≤ (chunk l).length :=
              List.countP_le_length _
          _ ≤ cap := by
              rw [hchunk]
              simp
      have main : ∀ lvls : List Int, lvls.Nodup →
          (lvls.map (fun lvl => (chunk lvl).countP (fun s => s.difficulty_level == l))).sum
            ≤ cap := by
        intro lvls
        induction lvls with
        | nil => simp
        | cons lvl lvls ih =>
          intro hnd
          rw [List.map_cons, List.sum_cons]
          by_cases hl : lvl = l
          · subst hl
            have hzero :
                (lvls.map (fun lv => (chunk lv).countP
                  (fun s => s.difficulty_level == lvl))).sum = 0 := by
              apply List.sum_eq_zero
              intro t ht
              obtain ⟨lv, hlv, rfl⟩ := List.mem_map.mp ht
              exact hterm_ne lv (fun h => (List.nodup_cons.mp hnd).1 (h ▸ hlv))
            rw [hzero]
            simpa using hterm_le
          · rw [hterm_ne lvl hl]
            simpa using ih (List.nodup_cons.mp hnd).2
      exact main _ (balanced_levels_nodup subjects)
    · rw [← hout, List.pairwise_flatMap]
      constructor
      · intro lvl _
        apply List.pairwise_of_forall_mem_list
        intro a ha b hb
        rw [balanced_chunk_difficulty subjects cap lvl a ha,
          balanced_chunk_difficulty subjects cap lvl b hb]
      · exact (balanced_levels_sorted subjects).imp (fun {l₁ l₂} h x hx y hy => by
          rw [balanced_chunk_difficulty subjects cap l₁ x hx,
            balanced_chunk_difficulty subjects cap l₂ y hy]
          exact h)
    · rw [← hout, List.pairwise_flatMap]
      constructor
      · intro lvl _
        have hsorted := List.sorted_insertionSort (key1LE fun s : Subject => -s.credits)
          (subjects.filter (fun s => s.difficulty_level == lvl))
        have htake := List.Pairwise.sublist (List.take_sublist cap _) hsorted
        exact htake.imp (fun h _ => by simp only [key1LE] at h; omega)
      · exact (balanced_levels_nodup subjects).imp (fun {l₁ l₂} h x hx y hy heq => by
          rw [balanced_chunk_difficulty subjects cap l₁ x hx] at heq
          rw [balanced_chunk_difficulty subjects cap l₂ y hy] at heq
          exact absurd heq h)
    · intro prefs2 h2
      unfold SchedulerService.apply_strategy
      rw [h2]
      refine ⟨List.perm_insertionSort _ _, ?_⟩
      have hs := List.sorted_insertionSort
        (keyLE fun s : Subject => (s.difficulty_level, -s.credits)) subjects
      exact hs.imp (fun h => by
        simp only [keyLE, lexLE] at h
        omega)

/-- Witness for C7: on three concrete candidates over two levels the
antigo balanced strategy succeeds and the per-level floor-plus-one cap
bounds every level's count. -/
theorem C7_balanced_difficulty_witness :
    SubjectScheduler.strategy_balanced_difficulty [subjL1a, subjL1b, subjL2c] prefsBal =
      .ok [subjL1a, subjL1b, subjL2c] ∧
    (∀ l : Int, ([subjL1a, subjL1b, subjL2c] : List Subject).countP
        (fun s => s.difficulty_level == l) ≤
      prefsBal.subject_count /
        (SubjectScheduler.balanced_levels [subjL1a, subjL1b, subjL2c]).length + 1) :=
  ⟨by decide,
   (C7_balanced_difficulty [subjL1a, subjL1b, subjL2c] prefsBal
      [subjL1a, subjL1b, subjL2c] (by decide)).1⟩

/-- Counterexample for C7 as stated: with `subject_count = 2` and two
distinct levels, `ceil(2 / 2) = 1`, yet the antigo strategy admits
`2 // 2 + 1 = 2` difficulty-1 subjects, and the backend's
balanced branch (a plain sort) also keeps both difficulty-1 subjects —
both exceed the claimed `ceil` cap. -/
theorem C7_counterexample :
    SubjectScheduler.strategy_balanced_difficulty [subjL1a, subjL1b, subjL2c] prefsBal =
      .ok [subjL1a, subjL1b, subjL2c] ∧
    (SubjectScheduler.balanced_levels [subjL1a, subjL1b, subjL2c]).length = 2 ∧
    (prefsBal.subject_count + 2 - 1) / 2 = 1 ∧
    ¬ (([subjL1a, subjL1b, subjL2c] : List Subject).countP
        (fun s => s.difficulty_level == 1) ≤ 1) ∧
    ¬ ((SchedulerService.apply_strategy [subjL1a, subjL1b, subjL2c] prefsBal).countP
        (fun s => s.difficulty_level == 1) ≤ 1) := by
  decide

/-- C10.  Whenever `create_optimal_schedule` succeeds, the result is
internally consistent in both implementations: `total_subjects` equals the
length of the returned schedule list, the top-level `total_credits` equals
the sum of the scheduled subjects' credits, and for a non-empty schedule
the analysis dict's `total_credits` entry carries the same value. -/
theorem C10_result_consistency (subjects : List Subject) (iprefs : List (String × Int))
    (prefs : SchedulingPreferences) (sched : List Subject)
    (analysis : List (String × PyVal)) (ts : Nat) (tc : Int)
    (hok : SubjectScheduler.create_optimal_schedule subjects iprefs prefs =
      .ok sched analysis ts tc) :
    (ts = sched.length ∧ tc = sumCredits sched ∧
      (sched ≠ [] → analysis.lookup "total_credits" = some (.int tc))) ∧
    ((SchedulerService.create_optimal_schedule subjects prefs).success = true ∧
     (SchedulerService.create_optimal_schedule subjects prefs).total_subjects =
       (SchedulerService.create_optimal_schedule subjects prefs).schedule.length ∧
     (SchedulerService.create_optimal_schedule subjects prefs).total_credits =
       ((SchedulerService.create_optimal_schedule subjects prefs).schedule.map
         (·.credits)).sum ∧
     ((SchedulerService.create_optimal_schedule subjects prefs).schedule ≠ [] →
       (SchedulerService.create_optimal_schedule subjects prefs).analysis.lookup
         "total_credits" =
        some (.int (SchedulerService.create_optimal_schedule subjects prefs).total_credits))) := by
  constructor
  · unfold SubjectScheduler.create_optimal_schedule at hok
    dsimp only at hok
    rcases happ : SubjectScheduler.apply_scheduling_strategy
        (SubjectScheduler.filter_compatible_subjects subjects prefs.weekly_availability)
        iprefs prefs with e | recommended
    · rw [happ] at hok
      exact absurd hok (by simp)
    · rw [happ] at hok
      simp only at hok
      injection hok with h1 h2 h3 h4
      subst h1; subst h2; subst h3; subst h4
      refine ⟨rfl, rfl, ?_⟩
      intro hne
      unfold SubjectScheduler.analyze_schedule
      rw [if_neg (by simpa [List.isEmpty_iff] using hne)]
      simp [List.lookup]
  · unfold SchedulerService.create_optimal_schedule
    refine ⟨rfl, by simp, ?_, ?_⟩
    · simp only [List.map_map]
      unfold sumCredits
      rfl
    · intro hne
      simp only at hne ⊢
      have hne2 : SchedulerService.resolve_conflicts
          (SchedulerService.apply_strategy
            (SchedulerService.filter_compatible subjects prefs.weekly_availability) prefs)
          prefs ≠ [] := by
        intro h
        rw [h] at hne
        exact hne rfl
      unfold SchedulerService.analyze
      rw [if_neg (by simpa [List.isEmpty_iff] using hne2)]
      simp [List.lookup]

/-- Witness for C10: a complete concrete run of both pipelines in which
one subject is scheduled; the success hypothesis is discharged by
evaluation. -/
theorem C10_result_consistency_witness :
    (1 = ([subjCalc] : List Subject).length ∧ 4 = sumCredits [subjCalc] ∧
     (SubjectScheduler.analyze_schedule [subjCalc] prefsRun).lookup "total_credits" =
       some (.int 4)) ∧
    (SchedulerService.create_optimal_schedule [subjCalc] prefsRun).success = true ∧
    (SchedulerService.create_optimal_schedule [subjCalc] prefsRun).total_subjects =
      (SchedulerService.create_optimal_schedule [subjCalc] prefsRun).schedule.length :=
  have h := C10_result_consistency [subjCalc] [] prefsRun [subjCalc]
    (SubjectScheduler.analyze_schedule [subjCalc] prefsRun) 1 4 (by decide)
  ⟨⟨h.1.1, h.1.2.1, h.1.2.2 (by simp)⟩, h.2.1, h.2.2.1⟩
